import Mathlib

/-!
Verification development for the oauth-semaphore repository.

The repository is a Next.js application with two tightly coupled subsystems:
deterministic Semaphore identity derivation (`src/lib/semaphore/identity.js`,
`src/unnamed/part_008`) and an encrypted, cached membership store
(`src/lib/semaphore/group.js`, `src/lib/security/encryption.js`).  Several
source files contain two retrieved variants of the same module; where claims
cite both, both variants are embedded (suffix `V1` for the first document in
the file, `V2` for the second).

External collaborators (Node `crypto`, the Semaphore library's `Identity` and
`Group`, JSON serialization, the filesystem) are not part of the repository;
they are modelled as explicit deterministic Lean functions, each marked
`Modelled from the spec:` in its doc comment.
-/

namespace OAuthSemaphore

/-- Equality of `Except` values is decidable when it is on both sides;
several operations below model throwing JavaScript code with `Except`. -/
instance {ε α : Type} [DecidableEq ε] [DecidableEq α] :
    DecidableEq (Except ε α) := fun x y =>
  match x, y with
  | .ok a, .ok b =>
      if h : a = b then .isTrue (by rw [h])
      else .isFalse (fun hc => h (by injection hc))
  | .error a, .error b =>
      if h : a = b then .isTrue (by rw [h])
      else .isFalse (fun hc => h (by injection hc))
  | .ok _, .error _ => .isFalse (fun hc => Except.noConfusion hc)
  | .error _, .ok _ => .isFalse (fun hc => Except.noConfusion hc)

/-! ## JavaScript string primitives

`group.js` (variant 1) normalizes commitments with
`String(value ?? '').trim()` and filters empty strings.  We model JS strings
as Lean `String` and JS `trim` over the underlying character list. -/

/-- Modelled from the spec: the JavaScript whitespace characters recognized by
`String.prototype.trim` (restricted to the ASCII whitespace set, which covers
every input the repository manipulates). -/
def isJsWs (c : Char) : Bool :=
  c = ' ' || c = '\t' || c = '\n' || c = '\r' || c = '\x0b' || c = '\x0c'

/-- Drop leading JS whitespace from a character list. -/
def dropLeadWs (l : List Char) : List Char := l.dropWhile isJsWs

/-- Drop trailing JS whitespace from a character list. -/
def dropTrailWs (l : List Char) : List Char := (dropLeadWs l.reverse).reverse

/-- Remove leading and trailing JS whitespace. -/
def trimChars (l : List Char) : List Char := dropLeadWs (dropTrailWs l)

/-- Modelled from the spec: JavaScript `String.prototype.trim`. -/
def jsTrim (s : String) : String := ⟨trimChars s.data⟩

/-- Source: `normalizeCommitmentValue` in `src/lib/semaphore/group.js`
(variant 1, lines 15-17): `String(value ?? '').trim()`; on string inputs this
is exactly `trim`. -/
def normalizeCommitmentValue (s : String) : String := jsTrim s

/-- Source: `normalizeMembersArray` in `src/lib/semaphore/group.js`
(variant 1, lines 19-24): trim every member and drop the empty ones. -/
def normalizeMembersArray (members : List String) : List String :=
  (members.map normalizeCommitmentValue).filter (fun m => m.length != 0)

/-! ## JavaScript BigInt conversion

`addMember` maps every member string through `BigInt` before handing the
list to the Semaphore `Group`.  `BigInt("")` (and all-whitespace strings)
evaluate to `0n`; decimal strings with an optional sign parse to their
value; anything else throws a `SyntaxError`.  (Hex/octal/binary literal
forms do not occur in this repository and are modelled as failures.) -/

/-- Numeric value of a decimal digit list (most significant first). -/
def natOfDigits (l : List Char) : Nat :=
  l.foldl (fun a c => a * 10 + (c.toNat - 48)) 0

/-- Modelled from the spec: the JavaScript `BigInt(string)` conversion,
restricted to decimal literals; `none` models a thrown `SyntaxError`. -/
def jsBigInt (s : String) : Option Int :=
  match (jsTrim s).data with
  | [] => some 0
  | '-' :: ds =>
      if ds ≠ [] && ds.all Char.isDigit then some (-(natOfDigits ds : Int)) else none
  | '+' :: ds =>
      if ds ≠ [] && ds.all Char.isDigit then some ((natOfDigits ds : Int)) else none
  | ds => if ds.all Char.isDigit then some ((natOfDigits ds : Int)) else none

/-- `members.map(BigInt)`: fails (throws) as soon as one element fails. -/
def mapBigInt : List String → Option (List Int)
  | [] => some []
  | s :: rest =>
      match jsBigInt s, mapBigInt rest with
      | some v, some vs => some (v :: vs)
      | _, _ => none

/-! ## Byte and hex helpers -/

/-- Modelled from the spec: the byte encoding of a string (`Buffer.from(s)`);
faithful for the ASCII data this repository manipulates. -/
def strBytes (s : String) : List Nat := s.data.map Char.toNat

/-- Lower-case hex digit for a value below 16. -/
def hexDigit (n : Nat) : Char :=
  if n < 10 then Char.ofNat (48 + n) else Char.ofNat (87 + n)

/-- Modelled from the spec: `Buffer.prototype.toString('hex')`. -/
def bytesToHex (bs : List Nat) : String :=
  ⟨bs.foldr (fun b acc => hexDigit (b / 16 % 16) :: hexDigit (b % 16) :: acc) []⟩

/-- Modelled from the spec: `Buffer.prototype.toString('utf8')` on decrypted
bytes; partial inverse of `strBytes`. -/
def bytesToStr (bs : List Nat) : String := ⟨bs.map Char.ofNat⟩

/-! ## Modelled cryptographic primitives

The SHA-256-based primitives of Node `crypto` and the Semaphore library's
`Identity`/`Group` constructions are external collaborators (spec §6): the
spec only requires them to be fixed deterministic functions.  They are
modelled as concrete executable mixing functions so every embedded operation
can be evaluated on concrete inputs. -/

/-- One multiply-add mixing step (32-bit). -/
def mixStep (a b : Nat) : Nat := (a * 16777619 + b + 1) % 4294967296

/-- Fold a byte list through the mixing step. -/
def foldHash (seed : Nat) (bs : List Nat) : Nat := bs.foldl mixStep seed

/-- Modelled from the spec: `crypto.createHmac('sha256', key).update(msg)`,
a deterministic keyed hash producing 32 bytes. -/
def hmacSha256 (key msg : List Nat) : List Nat :=
  let h := foldHash (foldHash 2166136261 key) (1 :: msg)
  (List.range 32).map (fun i => (h + 131 * i) % 256)

/-- Modelled from the spec: `crypto.hkdfSync('sha256', ikm, salt, info, len)`,
the extract-then-expand key-derivation construction. -/
def hkdfSha256 (ikm salt info : List Nat) (len : Nat) : List Nat :=
  let h := foldHash (foldHash (foldHash 5381 salt) (2 :: ikm)) (3 :: info)
  (List.range len).map (fun i => (h + 197 * i) % 256)

/-- Modelled from the spec: a Semaphore v3 identity — a trapdoor and a
nullifier (the private components) and the public commitment derived from
them. -/
structure SemaphoreIdentity where
  trapdoor : String
  nullifier : String
  commitment : String
deriving DecidableEq, Repr

/-- Modelled from the spec: `new Identity(seed)` — deterministic in the seed
string; the commitment is a one-way public value. -/
def identityOf (seed : String) : SemaphoreIdentity :=
  let h := foldHash 7 (strBytes seed)
  { trapdoor := toString (3 * h + 1)
    nullifier := toString (5 * h + 2)
    commitment := toString (7 * h + 3) }

/-- Injective code of an integer member value. -/
def intCode (m : Int) : Nat :=
  if 0 ≤ m then 2 * m.toNat else 2 * (-m).toNat + 1

/-- Modelled from the spec: the external tree-aggregation ("Merkle") root
function — `new Group(id, treeDepth, members).root.toString()` — a pure
deterministic function of the group id, depth and the ordered member list,
returning a decimal string. -/
def groupRoot (id treeDepth : Nat) (members : List Int) : String :=
  toString (members.foldl (fun acc m => Nat.pair acc (intCode m))
    (Nat.pair id treeDepth) + 1)

/-! ## Identity derivation (`src/unnamed/part_008`, `src/lib/semaphore/identity.js`)

`generateDeterministicIdentity` (v3 variant, `part_008` lines 12-75) builds
an HMAC salt from the issuer, client id, subject and normalized email
according to the `IDENTITY_DERIVATION` strategy, derives 32 bytes by HKDF
with `appSecret` as input keying material and the versioned `infoLabel` as
context, and constructs a Semaphore identity from the hex-encoded key. -/

/-- The environment variables read by the v3 derivation. -/
structure DerivEnv where
  issuer : String
  clientId : String
  identityDerivation : Option String
deriving DecidableEq, Repr

/-- Source: the return value of `generateDeterministicIdentity`. -/
structure IdentityMaterial where
  identity : SemaphoreIdentity
  commitment : String
  privateKey : String
  auth0Sub : String
deriving DecidableEq, Repr

/-- Source: `generateDeterministicIdentity` in `src/unnamed/part_008`
(lines 12-75).  The thrown error of the missing-input check is re-wrapped by
the surrounding `catch` into a single message; the development-mode debug
logging has no effect on the produced value. -/
def generateDeterministicIdentity (env : DerivEnv) (auth0Sub appSecret : String)
    (userEmail : Option String) (infoLabel : String) :
    Except String IdentityMaterial :=
  if auth0Sub = "" || appSecret = "" then
    .error "Failed to generate deterministic identity"
  else
    let info := strBytes infoLabel
    let ikm := strBytes appSecret
    let normalizedEmail := match userEmail with
      | some e => (jsTrim e).toLower
      | none => ""
    let derivationStrategy := (env.identityDerivation.getD "sub+email").toLower
    let saltInput :=
      if derivationStrategy = "email" then
        env.issuer ++ "|" ++ env.clientId ++ "|" ++ normalizedEmail
      else if derivationStrategy = "sub" then
        env.issuer ++ "|" ++ env.clientId ++ "|" ++ auth0Sub
      else
        env.issuer ++ "|" ++ env.clientId ++ "|" ++ auth0Sub ++ "|" ++ normalizedEmail
    let saltBuffer := hmacSha256 (strBytes appSecret) (strBytes saltInput)
    let derivedKey := hkdfSha256 ikm saltBuffer info 32
    let privateKey := bytesToHex derivedKey
    let identity := identityOf privateKey
    .ok { identity := identity
          commitment := identity.commitment
          privateKey := privateKey
          auth0Sub := auth0Sub }

/-! ## Authenticated-encryption codec (`src/lib/security/encryption.js`)

The source uses Node's deprecated `crypto.createCipher(alg, password)` API:
the cipher key and effective IV are derived from the password alone
(`EVP_BytesToKey`), so the keystream depends only on the password; the
random 16-byte `iv` generated per call is stored in the blob but never
passed to the cipher, and `decrypt` destructures it without using it. -/

/-- Modelled from the spec: the keystream byte at position `i` of the
password-derived cipher state (`createCipher`/`createDecipher` derive the
key and IV from the password only, so the stream is a function of the
password alone). -/
def cipherStream (password : String) (i : Nat) : Nat :=
  (foldHash 1469598103 (strBytes password) + 2654435761 * i) % 4294967296

/-- XOR a byte list against the password keystream starting at offset `i`. -/
def xorStreamFrom (password : String) : Nat → List Nat → List Nat
  | _, [] => []
  | i, b :: bs => (b ^^^ cipherStream password i) :: xorStreamFrom password (i + 1) bs

/-- Modelled from the spec: the GCM authentication tag over the ciphertext
under the password-derived key; for a fixed key it determines the
ciphertext, which models that the tag check rejects any ciphertext
alteration. -/
def gcmTag (password : String) (ct : List Nat) : List Nat :=
  strBytes password ++ ct

/-- Source: the `ALGORITHM` constant of `encryption.js`. -/
def ALGORITHM : String := "aes-256-gcm"

/-- Source: the `EncryptedBlob` produced by `encrypt` (lines 44-49):
hex ciphertext, the (unused) random iv, the auth tag and the algorithm
name. -/
structure EncryptedBlob where
  encrypted : List Nat
  iv : List Nat
  authTag : List Nat
  algorithm : String
deriving DecidableEq, Repr

/-- Source: `encrypt` in `src/lib/security/encryption.js` (lines 31-50).
`ivRandom` models the `crypto.randomBytes(16)` call; note that the source
generates it and stores it in the blob but the ciphertext and tag are
computed by `createCipher` from the password alone. -/
def encrypt (key : String) (ivRandom : List Nat) (text : String) :
    Except String EncryptedBlob :=
  if text = "" then .error "Text to encrypt cannot be empty"
  else
    let ct := xorStreamFrom key 0 (strBytes text)
    .ok { encrypted := ct
          iv := ivRandom
          authTag := gcmTag key ct
          algorithm := ALGORITHM }

/-- Source: `decrypt` in `src/lib/security/encryption.js` (lines 57-71).
The blob's `iv` field is destructured but never used (`createDecipher`
re-derives key and IV from the password); the auth tag is verified by
`decipher.final()`.  Only the `aes-256-gcm` construction occurs, so the
`algorithm` field selects the same modelled cipher. -/
def decrypt (key : String) (blob : EncryptedBlob) : Except String String :=
  if blob.encrypted = [] then .error "Invalid encrypted data"
  else if blob.authTag = gcmTag key blob.encrypted then
    .ok (bytesToStr (xorStreamFrom key 0 blob.encrypted))
  else
    .error "Unsupported state or unable to authenticate data"

/-- Source: `getEncryptionKey` in `src/lib/security/encryption.js`
(lines 10-21): return the environment key when truthy, otherwise warn and
return the hex encoding of 32 freshly generated random bytes.  The
`Except` result type records that the function may throw: it never does. -/
def getEncryptionKey (envKey : Option String) (randBytes : List Nat) :
    Except String String :=
  match envKey with
  | some k => if k ≠ "" then .ok k else .ok (bytesToHex randBytes)
  | none => .ok (bytesToHex randBytes)

/-! ## Group state and its JSON serialization -/

/-- Source: the persisted group aggregate `{id, treeDepth, members, root}`
of `group.js`; `root` is `null` (`none`) or a decimal string. -/
structure RawGroup where
  id : Nat
  treeDepth : Nat
  members : List String
  root : Option String
deriving DecidableEq, Repr

/-- Source: `DEFAULT_GROUP` in `group.js`. -/
def DEFAULT_GROUP : RawGroup := { id := 1, treeDepth := 20, members := [], root := none }

/-- JavaScript falsiness of the `root` field: `null` and the empty string
are falsy. -/
def rootFalsy : Option String → Bool
  | none => true
  | some s => s == ""

/-- Source: `initializeGroup` in `group.js` variant 1 (lines 29-44):
normalize the member list defensively, then recompute the root of the
empty tree whenever `root` is falsy or the member list is empty. -/
def initGroupV1 (data : RawGroup) : RawGroup :=
  let d := { data with members := normalizeMembersArray data.members }
  if rootFalsy d.root || d.members.isEmpty then
    { d with root := some (groupRoot d.id d.treeDepth []) }
  else d

/-- Source: `initializeGroup` in `group.js` variant 2 (lines 301-307):
same root logic, without member normalization. -/
def initGroupV2 (data : RawGroup) : RawGroup :=
  if rootFalsy data.root || data.members.isEmpty then
    { data with root := some (groupRoot data.id data.treeDepth []) }
  else data

/-- Unary length code followed by a terminator, used by the modelled JSON
encoding (chosen for a provably invertible executable encoding; any
injective encoding models `JSON.stringify` faithfully for our purposes). -/
def encodeUnary (n : Nat) : List Char := List.replicate n '1' ++ [',']

/-- Length-prefixed string field. -/
def encodeStrField (s : String) : List Char := encodeUnary s.data.length ++ s.data

/-- Modelled from the spec: `JSON.stringify` of a group record — an
injective textual encoding of the four fields. -/
def groupToString (g : RawGroup) : String :=
  ⟨encodeUnary g.id ++ encodeUnary g.treeDepth
    ++ encodeUnary g.members.length
    ++ g.members.foldr (fun m acc => encodeStrField m ++ acc) []
    ++ (match g.root with
        | none => ['n']
        | some r => 's' :: encodeStrField r)⟩

/-- Read back a unary length code. -/
def readUnary : List Char → Option (Nat × List Char)
  | ',' :: rest => some (0, rest)
  | '1' :: rest => (readUnary rest).map (fun p => (p.1 + 1, p.2))
  | _ => none

/-- Read back a length-prefixed string field. -/
def readStrField (cs : List Char) : Option (String × List Char) :=
  (readUnary cs).bind (fun p =>
    if p.1 ≤ p.2.length then some (⟨p.2.take p.1⟩, p.2.drop p.1) else none)

/-- Read back `k` consecutive string fields. -/
def readStrFields : Nat → List Char → Option (List String × List Char)
  | 0, rest => some ([], rest)
  | k + 1, rest =>
      (readStrField rest).bind (fun p =>
        (readStrFields k p.2).map (fun q => (p.1 :: q.1, q.2)))

/-- Modelled from the spec: `JSON.parse` of a group record — the partial
inverse of `groupToString`; `none` models both a parse error and a JSON
value that is not a group record.  (In JavaScript, `JSON.parse` also
succeeds on the serialized form of an encrypted blob, producing a
degenerate group with `undefined` id; that corner lies outside the
modelled state space.) -/
def groupParse (s : String) : Option RawGroup :=
  (readUnary s.data).bind fun pid =>
  (readUnary pid.2).bind fun pd =>
  (readUnary pd.2).bind fun pk =>
  (readStrFields pk.1 pk.2).bind fun pm =>
  match pm.2 with
  | ['n'] => some { id := pid.1, treeDepth := pd.1, members := pm.1, root := none }
  | 's' :: rest =>
      (readStrField rest).bind fun pr =>
        if pr.2 = [] then
          some { id := pid.1, treeDepth := pd.1, members := pm.1, root := some pr.1 }
        else none
  | _ => none

/-! ## On-disk files and worlds -/

/-- A stored file, classified by what `JSON.parse` of its text yields: the
serialized form of an `EncryptedBlob`, a legacy plaintext group record, or
unparseable content. -/
inductive StoredFile where
  | encFile (blob : EncryptedBlob)
  | plainFile (g : RawGroup)
  | junkFile
deriving DecidableEq, Repr

/-- Source: `encryptToFile` (encryption.js lines 78-89) restricted to group
payloads: `JSON.stringify` the group, encrypt, and store the blob. -/
def encryptGroupBlob (key : String) (ivRandom : List Nat) (g : RawGroup) :
    Except String EncryptedBlob :=
  encrypt key ivRandom (groupToString g)

/-- Source: `decryptFromFile` (encryption.js lines 96-105): fail when the
file is missing, `JSON.parse` the file (an object without an `encrypted`
field makes `decrypt` throw), decrypt, and `JSON.parse` the plaintext. -/
def decryptFromFile (key : String) : Option StoredFile → Option RawGroup
  | none => none
  | some (.encFile b) =>
      match decrypt key b with
      | .ok s => groupParse s
      | .error _ => none
  | some (.plainFile _) => none
  | some .junkFile => none

/-- Source: `JSON.parse(fs.readFileSync(file))` on the legacy plaintext
path of variant 1. -/
def parsePlainGroup : Option StoredFile → Option RawGroup
  | some (.plainFile g) => some g
  | _ => none

/-- Source: `CACHE_TTL` (5 minutes in milliseconds). -/
def CACHE_TTL : Nat := 300000

/-- World of `group.js` variant 1: the single file `data/group.json`, the
module-level cache and its timestamp, plus a fault-injection flag modelling
a filesystem error inside `encryptToFile`. -/
structure WorldV1 where
  groupJson : Option StoredFile
  cache : Option RawGroup
  cacheTs : Option Nat
  encWriteFails : Bool
deriving DecidableEq, Repr

/-- World of `group.js` variant 2: `data/group.encrypted`,
`data/group.backup.encrypted`, the `data/group.json` file written only by
the reset recovery path, the cache, and the same fault-injection flag. -/
structure WorldV2 where
  primaryEnc : Option StoredFile
  backupEnc : Option StoredFile
  groupJson : Option StoredFile
  cache : Option RawGroup
  cacheTs : Option Nat
  encWriteFails : Bool
deriving DecidableEq, Repr

/-! ## Variant 1 operations (`group.js` lines 1-280) -/

/-- Source: `loadGroupFromFile` variant 1 (lines 49-79): decrypt the
primary file; on failure parse it as legacy plaintext and migrate
(re-encrypting in place, creating no backup); on any failure fall back to
the default state without persisting it. -/
def loadGroupFromFileV1 (key : String) (ivRandom : List Nat) (w : WorldV1) :
    RawGroup × WorldV1 :=
  match w.groupJson with
  | none => (initGroupV1 DEFAULT_GROUP, w)
  | some f =>
      match decryptFromFile key (some f) with
      | some g => (initGroupV1 g, w)
      | none =>
          match parsePlainGroup (some f) with
          | some pg =>
              let ini := initGroupV1 pg
              if w.encWriteFails then (initGroupV1 DEFAULT_GROUP, w)
              else
                match encryptGroupBlob key ivRandom ini with
                | .ok blob => (ini, { w with groupJson := some (.encFile blob) })
                | .error _ => (initGroupV1 DEFAULT_GROUP, w)
          | none => (initGroupV1 DEFAULT_GROUP, w)

/-- Cache-miss path of `getGroupData` variant 1: load, normalize the member
list defensively, and install the result in the cache. -/
def getGroupDataV1Load (key : String) (ivRandom : List Nat) (now : Nat)
    (w : WorldV1) : RawGroup × WorldV1 :=
  let p := loadGroupFromFileV1 key ivRandom w
  let g := { p.1 with members := normalizeMembersArray p.1.members }
  (g, { p.2 with cache := some g, cacheTs := some now })

/-- Source: `getGroupData` variant 1 (lines 107-132). -/
def getGroupDataV1 (key : String) (ivRandom : List Nat) (now : Nat)
    (w : WorldV1) : RawGroup × WorldV1 :=
  match w.cache, w.cacheTs with
  | some g, some ts =>
      if now - ts < CACHE_TTL then (g, w)
      else getGroupDataV1Load key ivRandom now w
  | _, _ => getGroupDataV1Load key ivRandom now w

/-- Which stage of `saveGroupData` threw. -/
inductive SaveErr where
  | invalid
  | fileFail
deriving DecidableEq, Repr

/-- Source: `saveGroupToFile` variant 1 (lines 84-102): encrypt into
`data/group.json`; no backup of any kind is taken. -/
def saveGroupToFileV1 (key : String) (ivRandom : List Nat) (g : RawGroup)
    (w : WorldV1) : Except Unit WorldV1 :=
  if w.encWriteFails then .error ()
  else
    match encryptGroupBlob key ivRandom g with
    | .ok blob => .ok { w with groupJson := some (.encFile blob) }
    | .error _ => .error ()

/-- Source: `saveGroupData` variant 1 (lines 137-161): validate the
structure (`!data.id || !data.treeDepth` — zero is falsy), normalize the
members, write the file, then refresh the cache. -/
def saveGroupDataV1 (key : String) (ivRandom : List Nat) (now : Nat)
    (g : RawGroup) (w : WorldV1) : Except SaveErr (RawGroup × WorldV1) :=
  if g.id = 0 || g.treeDepth = 0 then .error .invalid
  else
    let g' := { g with members := normalizeMembersArray g.members }
    match saveGroupToFileV1 key ivRandom g' w with
    | .ok w1 => .ok (g', { w1 with cache := some g', cacheTs := some now })
    | .error _ => .error .fileFail

/-- Source: `addMember` variant 1 (lines 163-191).  `currentGroupData` is
the cache object itself, so every in-place mutation (the defensive member
normalization, the push, the root update, the normalization inside
`saveGroupData`) is visible in the cache even when a later step throws. -/
def addMemberV1 (key : String) (ivRandom : List Nat) (now : Nat) (c : String)
    (w : WorldV1) : Except Unit Bool × WorldV1 :=
  let inc := normalizeCommitmentValue c
  let p := getGroupDataV1 key ivRandom now w
  let g := p.1
  let ms := normalizeMembersArray g.members
  if ms.any (fun m => normalizeCommitmentValue m == inc) then
    (.ok false, { p.2 with cache := some { g with members := ms } })
  else
    let ms' := ms ++ [inc]
    match mapBigInt ms' with
    | none => (.error (), { p.2 with cache := some { g with members := ms' } })
    | some vals =>
        let gRoot : RawGroup :=
          { g with members := ms', root := some (groupRoot g.id g.treeDepth vals) }
        match saveGroupDataV1 key ivRandom now gRoot { p.2 with cache := some gRoot } with
        | .ok (_, w3) => (.ok true, w3)
        | .error .invalid => (.error (), { p.2 with cache := some gRoot })
        | .error .fileFail =>
            let gN : RawGroup := { gRoot with members := normalizeMembersArray gRoot.members }
            (.error (), { p.2 with cache := some gN })

/-- Source: `resetGroupData` variant 1 (lines 193-240): delete the file,
clear the cache, save the freshly computed default state; on failure,
recover by writing the plaintext basic record `{id:1, treeDepth:20,
members:[], root:null}` and installing it — root `null` included — in the
cache.  (The plain `fs.writeFileSync` of the recovery path is modelled as
always succeeding, so the final rethrow branch is unreachable here.) -/
def resetGroupDataV1 (key : String) (ivRandom : List Nat) (now : Nat)
    (w : WorldV1) : Bool × WorldV1 :=
  let w1 : WorldV1 := { w with groupJson := none, cache := none, cacheTs := none }
  let defaultData := initGroupV1 DEFAULT_GROUP
  match saveGroupDataV1 key ivRandom now defaultData w1 with
  | .ok (_, w2) => (true, w2)
  | .error _ =>
      let basic : RawGroup := { id := 1, treeDepth := 20, members := [], root := none }
      (true, { w1 with groupJson := some (.plainFile basic),
                       cache := some basic, cacheTs := some now })

/-! ## Variant 2 operations (`group.js` lines 280-578) -/

/-- Source: `loadGroupFromFile` variant 2 (lines 312-335): decrypt the
primary encrypted file; only when that attempt throws is the backup tried;
there is no legacy-plaintext migration step, and the default fallback is
returned without being persisted.  When the primary file is absent no
exception is raised, so the backup is never consulted. -/
def loadGroupFromFileV2 (key : String) (w : WorldV2) : RawGroup :=
  match w.primaryEnc with
  | none => initGroupV2 DEFAULT_GROUP
  | some f =>
      match decryptFromFile key (some f) with
      | some g => initGroupV2 g
      | none =>
          match decryptFromFile key w.backupEnc with
          | some g => initGroupV2 g
          | none => initGroupV2 DEFAULT_GROUP

/-- Source: `getGroupData` variant 2 (lines 371-397); no defensive member
normalization in this variant. -/
def getGroupDataV2 (key : String) (now : Nat) (w : WorldV2) :
    RawGroup × WorldV2 :=
  match w.cache, w.cacheTs with
  | some g, some ts =>
      if now - ts < CACHE_TTL then (g, w)
      else
        let g := loadGroupFromFileV2 key w
        (g, { w with cache := some g, cacheTs := some now })
  | _, _ =>
      let g := loadGroupFromFileV2 key w
      (g, { w with cache := some g, cacheTs := some now })

/-- Source: `saveGroupToFile` variant 2 (lines 340-366): copy the existing
primary file to the backup location, then overwrite the primary with the
fresh encrypted blob.  On a write failure the backup copy has already
happened, which the error value records. -/
def saveGroupToFileV2 (key : String) (ivRandom : List Nat) (g : RawGroup)
    (w : WorldV2) : Except WorldV2 WorldV2 :=
  let w1 := match w.primaryEnc with
    | some f => { w with backupEnc := some f }
    | none => w
  if w.encWriteFails then .error w1
  else
    match encryptGroupBlob key ivRandom g with
    | .ok blob => .ok { w1 with primaryEnc := some (.encFile blob) }
    | .error _ => .error w1

/-- Source: `saveGroupData` variant 2 (lines 402-428). -/
def saveGroupDataV2 (key : String) (ivRandom : List Nat) (now : Nat)
    (g : RawGroup) (w : WorldV2) : Except WorldV2 (RawGroup × WorldV2) :=
  if g.id = 0 || g.treeDepth = 0 then .error w
  else
    match saveGroupToFileV2 key ivRandom g w with
    | .ok w1 => .ok (g, { w1 with cache := some g, cacheTs := some now })
    | .error w1 => .error w1

/-- Source: `addMember` variant 2 (lines 430-457): exact-string duplicate
check via `members.includes`, no input normalization or validation. -/
def addMemberV2 (key : String) (ivRandom : List Nat) (now : Nat) (c : String)
    (w : WorldV2) : Except Unit Bool × WorldV2 :=
  let p := getGroupDataV2 key now w
  let g := p.1
  if g.members.contains c then (.ok false, p.2)
  else
    let ms' := g.members ++ [c]
    match mapBigInt ms' with
    | none => (.error (), { p.2 with cache := some { g with members := ms' } })
    | some vals =>
        let gRoot : RawGroup :=
          { g with members := ms', root := some (groupRoot g.id g.treeDepth vals) }
        match saveGroupDataV2 key ivRandom now gRoot { p.2 with cache := some gRoot } with
        | .ok (_, w2) => (.ok true, w2)
        | .error w2 => (.error (), w2)

/-- Modelled from the spec (the claimed load procedure): four fallback
steps, first success wins — (1) decrypt-and-parse the primary file; (2)
decrypt-and-parse the backup; (3) parse the primary as legacy plaintext
and, on success, re-persist it encrypted and keep the pre-migration state
as the backup; (4) synthesize the default state and persist it. -/
def claimedLoadChain (key : String) (ivRandom : List Nat) (w : WorldV2) :
    RawGroup × WorldV2 :=
  match decryptFromFile key w.primaryEnc with
  | some g => (initGroupV2 g, w)
  | none =>
      match decryptFromFile key w.backupEnc with
      | some g => (initGroupV2 g, w)
      | none =>
          match parsePlainGroup w.primaryEnc with
          | some pg =>
              let ini := initGroupV2 pg
              match encryptGroupBlob key ivRandom ini with
              | .ok blob =>
                  (ini, { w with backupEnc := w.primaryEnc,
                                 primaryEnc := some (.encFile blob) })
              | .error _ => (ini, w)
          | none =>
              let d := initGroupV2 DEFAULT_GROUP
              match encryptGroupBlob key ivRandom d with
              | .ok blob => (d, { w with primaryEnc := some (.encFile blob) })
              | .error _ => (d, w)

/-! ## Identity endpoints (`src/pages/api/zk/identity/retrieve.js`)

The first document of `retrieve.js` returns only the public commitment; its
second (legacy) document builds the identity with `createIdentity` and
returns the trapdoor and nullifier — the private components — as plaintext
strings in the response body. -/

/-- The JSON body produced by the legacy identity endpoint (second document
of `retrieve.js`, lines 63-98). -/
structure LegacyIdentityResponse where
  status : Nat
  identityCommitment : Option String
  trapdoorField : Option String
  nullifierField : Option String
  commitmentField : Option String
deriving DecidableEq, Repr

/-- Source: the legacy handler of `retrieve.js` (lines 63-98).  `seed`
models the secure random seed that `createIdentity` feeds to
`new Identity`; the response construction at lines 84-91 places
`identity.trapdoor.toString()` and `identity.nullifier.toString()` directly
in the body. -/
def retrieveLegacyHandler (sessionEmail : Option String) (seed : String) :
    LegacyIdentityResponse :=
  match sessionEmail with
  | none =>
      { status := 401, identityCommitment := none, trapdoorField := none
        nullifierField := none, commitmentField := none }
  | some _ =>
      let identity := identityOf seed
      { status := 200
        identityCommitment := some identity.commitment
        trapdoorField := some identity.trapdoor
        nullifierField := some identity.nullifier
        commitmentField := some identity.commitment }

/-! ## Concrete worlds used by counterexamples and witnesses -/

/-- A variant-1 world with a freshly initialized cached default state. -/
def W1fresh : WorldV1 :=
  { groupJson := none, cache := some (initGroupV1 DEFAULT_GROUP)
    cacheTs := some 0, encWriteFails := false }

/-- A variant-2 world with a freshly initialized cached default state. -/
def W2fresh : WorldV2 :=
  { primaryEnc := none, backupEnc := none, groupJson := none
    cache := some (initGroupV2 DEFAULT_GROUP), cacheTs := some 0
    encWriteFails := false }

/-- A legacy plaintext group record with one member and a stored root. -/
def gLegacy : RawGroup :=
  { id := 1, treeDepth := 20, members := ["5"], root := some "7" }

/-- A variant-2 world whose primary file is a legacy plaintext record. -/
def W2legacy : WorldV2 :=
  { primaryEnc := some (.plainFile gLegacy), backupEnc := none
    groupJson := none, cache := none, cacheTs := none, encWriteFails := false }

/-- A variant-1 world whose file is a legacy plaintext record. -/
def W1legacy : WorldV1 :=
  { groupJson := some (.plainFile gLegacy), cache := none, cacheTs := none
    encWriteFails := false }

/-- The ciphertext of the serialized default group under password `"k"`. -/
def ctDefault : List Nat := xorStreamFrom "k" 0 (strBytes (groupToString DEFAULT_GROUP))

/-- A well-formed encrypted blob holding the default group (password `"k"`). -/
def blobDefault : EncryptedBlob :=
  { encrypted := ctDefault, iv := [7], authTag := gcmTag "k" ctDefault
    algorithm := ALGORITHM }

/-- A blob whose authentication tag does not verify under password `"k"`. -/
def badBlob : EncryptedBlob :=
  { encrypted := [1, 2, 3], iv := [0], authTag := [9], algorithm := ALGORITHM }

/-- Variant-2 world: decryptable primary file. -/
def W2goodPrimary : WorldV2 :=
  { primaryEnc := some (.encFile blobDefault), backupEnc := none
    groupJson := none, cache := none, cacheTs := none, encWriteFails := false }

/-- Variant-2 world: corrupt primary, decryptable backup. -/
def W2corruptPrimary : WorldV2 :=
  { primaryEnc := some (.encFile badBlob), backupEnc := some (.encFile blobDefault)
    groupJson := none, cache := none, cacheTs := none, encWriteFails := false }

/-- Variant-2 world: corrupt primary and no backup. -/
def W2corruptNoBackup : WorldV2 :=
  { primaryEnc := some (.encFile badBlob), backupEnc := none
    groupJson := none, cache := none, cacheTs := none, encWriteFails := false }

/-- The spec's root invariant for a group state: whenever the member list
converts through `BigInt`, the cached `root` equals the external root
function applied to the members at the stored depth.  (States whose members
do not convert cannot even be fed to the root function.) -/
def rootConsistent (g : RawGroup) : Bool :=
  match mapBigInt g.members with
  | some vals => g.root == some (groupRoot g.id g.treeDepth vals)
  | none => true

/-- The root invariant lifted to an optional cached state. -/
def cacheConsistent : Option RawGroup → Bool
  | some g => rootConsistent g
  | none => true

/-! ## Normalization lemmas -/

theorem length_dropWhile_le {α : Type} (p : α → Bool) (l : List α) :
    (l.dropWhile p).length ≤ l.length := by
  induction l with
  | nil => simp
  | cons a t ih =>
      by_cases h : p a
      · simp only [List.dropWhile, h]
        exact Nat.le_trans ih (Nat.le_succ _)
      · simp [List.dropWhile, h]

theorem dropWhile_dropWhile {α : Type} (p : α → Bool) (l : List α) :
    (l.dropWhile p).dropWhile p = l.dropWhile p := by
  induction l with
  | nil => rfl
  | cons a t ih =>
      by_cases h : p a
      · simp [List.dropWhile, h, ih]
      · simp [List.dropWhile, h]

/-- If `dropWhile` keeps a cons intact, its head fails the predicate. -/
theorem head_false_of_dropWhile_cons {α : Type} {p : α → Bool} {a : α}
    {t : List α} (h : List.dropWhile p (a :: t) = a :: t) : p a = false := by
  cases hx : p a with
  | false => rfl
  | true =>
      exfalso
      have h1 : List.dropWhile p (a :: t) = List.dropWhile p t := by
        simp [List.dropWhile, hx]
      rw [h] at h1
      have hlen := congrArg List.length h1
      have hle := length_dropWhile_le p t
      simp only [List.length_cons] at hlen
      omega

theorem dropLeadWs_idem (l : List Char) :
    dropLeadWs (dropLeadWs l) = dropLeadWs l :=
  dropWhile_dropWhile isJsWs l

theorem trimChars_idem (l : List Char) : trimChars (trimChars l) = trimChars l := by
  unfold trimChars
  set u := dropTrailWs l with hu
  -- the reverse of `u` is front-trimmed
  have hrevu : dropLeadWs u.reverse = u.reverse := by
    have h1 : u.reverse = dropLeadWs l.reverse := by
      rw [hu]; unfold dropTrailWs; rw [List.reverse_reverse]
    rw [h1]; exact dropLeadWs_idem l.reverse
  set v := dropLeadWs u with hv
  -- removing trailing whitespace from `v` changes nothing
  have hback : dropTrailWs v = v := by
    unfold dropTrailWs
    have hsplit : List.takeWhile isJsWs u ++ v = u := by
      rw [hv]; unfold dropLeadWs; exact List.takeWhile_append_dropWhile isJsWs u
    cases hc : v.reverse with
    | nil =>
        have hve : v = [] := by
          have := congrArg List.reverse hc
          simpa using this
        simp [hve, dropLeadWs]
    | cons b t2 =>
        have hurev : u.reverse = b :: (t2 ++ (List.takeWhile isJsWs u).reverse) := by
          conv_lhs => rw [← hsplit]
          simp [List.reverse_append, hc]
        have hb : isJsWs b = false := by
          have h2 : List.dropWhile isJsWs
              (b :: (t2 ++ (List.takeWhile isJsWs u).reverse))
              = b :: (t2 ++ (List.takeWhile isJsWs u).reverse) := by
            have h3 := hrevu
            unfold dropLeadWs at h3
            rw [hurev] at h3
            exact h3
          exact head_false_of_dropWhile_cons h2
        have hdl : dropLeadWs (b :: t2) = b :: t2 := by
          simp [dropLeadWs, List.dropWhile, hb]
        rw [hdl, ← hc, List.reverse_reverse]
  rw [hback, hv]
  exact dropLeadWs_idem u

theorem jsTrim_idem (s : String) : jsTrim (jsTrim s) = jsTrim s := by
  unfold jsTrim
  exact congrArg String.mk (trimChars_idem s.data)

theorem normalizeCommitmentValue_idem (s : String) :
    normalizeCommitmentValue (normalizeCommitmentValue s)
      = normalizeCommitmentValue s := jsTrim_idem s

theorem xorStreamFrom_involutive (password : String) (i : Nat) (l : List Nat) :
    xorStreamFrom password i (xorStreamFrom password i l) = l := by
  induction l generalizing i with
  | nil => rfl
  | cons b bs ih =>
      simp only [xorStreamFrom, ih]
      congr 1
      rw [Nat.xor_assoc, Nat.xor_self, Nat.xor_zero]

theorem decrypt_encrypt_roundtrip (key : String) (iv : List Nat) (text : String)
    (h : text ≠ "") (blob : EncryptedBlob)
    (henc : encrypt key iv text = .ok blob) :
    decrypt key blob = .ok text := by
  unfold encrypt at henc
  rw [if_neg h] at henc
  simp only [Except.ok.injEq] at henc
  subst henc
  have hne : strBytes text ≠ [] := by
    intro hc
    apply h
    unfold strBytes at hc
    have : text.data = [] := by
      cases hd : text.data with
      | nil => rfl
      | cons a t => rw [hd] at hc; simp at hc
    cases text
    simp_all
  have hct : xorStreamFrom key 0 (strBytes text) ≠ [] := by
    cases hd : strBytes text with
    | nil => exact absurd hd hne
    | cons a t => simp [xorStreamFrom, hd]
  unfold decrypt
  rw [if_neg hct, if_pos rfl, xorStreamFrom_involutive]
  unfold bytesToStr strBytes
  rw [List.map_map]
  have : ∀ c : Char, (Char.ofNat ∘ Char.toNat) c = c := by
    intro c
    simp [Function.comp, Char.ofNat_toNat]
  rw [List.map_congr_left (fun c _ => this c)]
  simp

theorem string_length_zero_iff (s : String) : s.length = 0 ↔ s = "" := by
  cases s with
  | mk data =>
      cases data with
      | nil => exact ⟨fun _ => rfl, fun _ => rfl⟩
      | cons a t =>
          constructor
          · intro h
            exact absurd h (by simp [String.length])
          · intro h
            exfalso
            have h2 := congrArg String.data h
            simp at h2

theorem normalizeMembersArray_append (l1 l2 : List String) :
    normalizeMembersArray (l1 ++ l2)
      = normalizeMembersArray l1 ++ normalizeMembersArray l2 := by
  unfold normalizeMembersArray
  rw [List.map_append, List.filter_append]

theorem normalizeMembersArray_idem (l : List String) :
    normalizeMembersArray (normalizeMembersArray l) = normalizeMembersArray l := by
  induction l with
  | nil => rfl
  | cons a t ih =>
      unfold normalizeMembersArray at *
      rw [List.map_cons, List.filter_cons]
      by_cases h : (normalizeCommitmentValue a).length = 0
      · have hb : ((normalizeCommitmentValue a).length != 0) = false := by
          simp [h]
        simp only [hb, Bool.false_eq_true, if_neg, ite_false]
        exact ih
      · have hb : ((normalizeCommitmentValue a).length != 0) = true := by
          simp [h]
        simp only [hb, ite_true]
        rw [List.map_cons, List.filter_cons]
        have hidem := normalizeCommitmentValue_idem a
        rw [hidem]
        simp only [hb, ite_true]
        rw [ih]

/-- A commitment equal to its own normalization and non-empty survives
normalization as a singleton. -/
theorem normalizeMembersArray_singleton (x : String)
    (hx : normalizeCommitmentValue x = x) (hne : x ≠ "") :
    normalizeMembersArray [x] = [x] := by
  unfold normalizeMembersArray
  rw [List.map_cons, List.map_nil, List.filter_cons, hx]
  have : (x.length != 0) = true := by
    simp only [bne_iff_ne, ne_eq]
    intro h0
    exact hne ((string_length_zero_iff x).mp h0)
  simp [this]

/-- The cache-miss-or-hit result of `getGroupData` variant 1 is always
installed in (or taken from) a fresh cache. -/
theorem getGroupDataV1_cache (key : String) (ivR : List Nat) (now : Nat)
    (w : WorldV1) :
    (getGroupDataV1 key ivR now w).2.cache = some (getGroupDataV1 key ivR now w).1 ∧
    ∃ ts, (getGroupDataV1 key ivR now w).2.cacheTs = some ts ∧ now - ts < CACHE_TTL := by
  have hload : ∀ v : WorldV1,
      (getGroupDataV1Load key ivR now v).2.cache
        = some (getGroupDataV1Load key ivR now v).1 ∧
      ∃ ts, (getGroupDataV1Load key ivR now v).2.cacheTs = some ts
        ∧ now - ts < CACHE_TTL := by
    intro v
    refine ⟨rfl, now, rfl, ?_⟩
    simp [CACHE_TTL]
  unfold getGroupDataV1
  rcases hc : w.cache with _ | g
  · exact hload w
  · rcases hts : w.cacheTs with _ | ts
    · exact hload w
    · dsimp only
      by_cases hfresh : now - ts < CACHE_TTL
      · rw [if_pos hfresh]
        exact ⟨hc, ts, hts, hfresh⟩
      · rw [if_neg hfresh]
        exact hload w

/-- Counterpart of `getGroupDataV1_cache` for variant 2. -/
theorem getGroupDataV2_cache (key : String) (now : Nat) (w : WorldV2) :
    (getGroupDataV2 key now w).2.cache = some (getGroupDataV2 key now w).1 ∧
    ∃ ts, (getGroupDataV2 key now w).2.cacheTs = some ts ∧ now - ts < CACHE_TTL := by
  have hfree : (0 : Nat) < CACHE_TTL := by simp [CACHE_TTL]
  unfold getGroupDataV2
  rcases hc : w.cache with _ | g
  · exact ⟨rfl, now, rfl, by simpa using hfree⟩
  · rcases hts : w.cacheTs with _ | ts
    · exact ⟨rfl, now, rfl, by simpa using hfree⟩
    · dsimp only
      by_cases hfresh : now - ts < CACHE_TTL
      · rw [if_pos hfresh]
        exact ⟨hc, ts, hts, hfresh⟩
      · rw [if_neg hfresh]
        exact ⟨rfl, now, rfl, by simpa using hfree⟩

theorem groupToString_ne_empty (g : RawGroup) : groupToString g ≠ "" := by
  unfold groupToString
  intro h
  have hd := congrArg String.data h
  simp [encodeUnary, List.append_eq_nil] at hd

/-- Group payloads always encrypt: the serialized text is never empty. -/
theorem encryptGroupBlob_ok (key : String) (ivR : List Nat) (g : RawGroup) :
    ∃ blob, encryptGroupBlob key ivR g = .ok blob := by
  unfold encryptGroupBlob encrypt
  rw [if_neg (groupToString_ne_empty g)]
  exact ⟨_, rfl⟩

/-- When `saveGroupData` variant 1 succeeds, it returns the normalized
group and installs it in a fresh cache. -/
theorem saveGroupDataV1_ok (key : String) (ivR : List Nat) (now : Nat)
    (g : RawGroup) (w : WorldV1) (p : RawGroup × WorldV1)
    (h : saveGroupDataV1 key ivR now g w = .ok p) :
    p.1 = { g with members := normalizeMembersArray g.members } ∧
    p.2.cache = some { g with members := normalizeMembersArray g.members } ∧
    p.2.cacheTs = some now := by
  unfold saveGroupDataV1 at h
  split at h
  · exact absurd h (by simp)
  · dsimp only at h
    split at h
    · simp only [Except.ok.injEq] at h
      rw [← h]
      exact ⟨rfl, rfl, rfl⟩
    · exact absurd h (by simp)

/-- When `saveGroupData` variant 2 succeeds, it returns the group unchanged
and installs it in a fresh cache. -/
theorem saveGroupDataV2_ok (key : String) (ivR : List Nat) (now : Nat)
    (g : RawGroup) (w : WorldV2) (p : RawGroup × WorldV2)
    (h : saveGroupDataV2 key ivR now g w = .ok p) :
    p.1 = g ∧ p.2.cache = some g ∧ p.2.cacheTs = some now := by
  unfold saveGroupDataV2 at h
  split at h
  · exact absurd h (by simp)
  · split at h
    · simp only [Except.ok.injEq] at h
      rw [← h]
      exact ⟨rfl, rfl, rfl⟩
    · exact absurd h (by simp)

/-- Re-installing the value a world already caches changes nothing. -/
theorem worldV1_cache_eta (w : WorldV1) (g : RawGroup) (h : w.cache = some g) :
    { w with cache := some g } = w := by
  cases w
  simp only at h
  rw [← h]

/-! ## Claim theorems -/

/-- C1: for a fixed tuple of inputs (subject id, app secret, auxiliary
email, derivation strategy, context label) and a fixed environment (issuer,
client id), two independent calls to `generateDeterministicIdentity`
produce identical `IdentityMaterial`: the same private key hex string and
the same commitment string. -/
theorem c1_identity_derivation_deterministic (env : DerivEnv)
    (auth0Sub appSecret : String) (userEmail : Option String)
    (infoLabel : String) (m1 m2 : IdentityMaterial)
    (h1 : generateDeterministicIdentity env auth0Sub appSecret userEmail infoLabel
        = .ok m1)
    (h2 : generateDeterministicIdentity env auth0Sub appSecret userEmail infoLabel
        = .ok m2) :
    m1.privateKey = m2.privateKey ∧ m1.commitment = m2.commitment := by
  rw [h1] at h2
  have hm : m1 = m2 := by
    injection h2
  rw [hm]
  exact ⟨rfl, rfl⟩

set_option maxRecDepth 4096 in
/-- Witness for C1 at a concrete environment and input tuple. -/
theorem c1_identity_derivation_deterministic_witness :
    ∃ m : IdentityMaterial,
      generateDeterministicIdentity
          { issuer := "https://demo.auth0.com", clientId := "client1"
            identityDerivation := none }
          "auth0|u1" "secret" (some " A@B.com ") "semaphore-identity-v3" = .ok m ∧
      m.privateKey = m.privateKey ∧ m.commitment = m.commitment := by
  cases hm : generateDeterministicIdentity
      { issuer := "https://demo.auth0.com", clientId := "client1"
        identityDerivation := none }
      "auth0|u1" "secret" (some " A@B.com ") "semaphore-identity-v3" with
  | ok m =>
      exact ⟨m, rfl, c1_identity_derivation_deterministic _ _ _ _ _ _ _ hm hm⟩
  | error e =>
      exfalso
      have hs : (generateDeterministicIdentity
          { issuer := "https://demo.auth0.com", clientId := "client1"
            identityDerivation := none }
          "auth0|u1" "secret" (some " A@B.com ")
          "semaphore-identity-v3").toOption.isSome = true := by decide
      rw [hm] at hs
      simp [Except.toOption] at hs

/-- C2: the decrypt-encrypt round trip holds and ciphertext or tag
tampering is rejected, but the blob's `nonce`/`iv` field is ignored by
`decrypt`, so altering it does not make decryption fail: the original
plaintext is returned for a blob whose iv was overwritten. -/
theorem c2_iv_tamper_not_detected :
    ∃ blob : EncryptedBlob,
      encrypt "k0" [1, 2] "hi" = .ok blob ∧
      decrypt "k0" { blob with iv := [9, 2] } = .ok "hi" := by
  refine ⟨_, rfl, ?_⟩
  decide

/-- C6: the legacy identity endpoint (second document of `retrieve.js`,
lines 80-91) returns the identity's private components — trapdoor and
nullifier — as plaintext strings in a 200 response body, contradicting the
contract that only the public commitment crosses the boundary. -/
theorem c6_legacy_identity_endpoint_leaks_private_components :
    (retrieveLegacyHandler (some "user@example.com") "seed0").status = 200 ∧
    (retrieveLegacyHandler (some "user@example.com") "seed0").trapdoorField
      = some (identityOf "seed0").trapdoor ∧
    (retrieveLegacyHandler (some "user@example.com") "seed0").nullifierField
      = some (identityOf "seed0").nullifier := by
  exact ⟨rfl, rfl, rfl⟩

/-- C7 counterexample: with `ENCRYPTION_KEY` missing, `getEncryptionKey`
does not reject with a configuration error — it silently returns the hex
encoding of 32 generated random bytes. -/
theorem c7_missing_key_not_rejected :
    getEncryptionKey none (List.replicate 32 0)
      = .ok (String.mk (List.replicate 64 (Char.ofNat 48))) := by
  decide

/-- C7 (amended): `getEncryptionKey` never fails: a present non-empty
`ENCRYPTION_KEY` is returned verbatim with no length validation, and a
missing or empty key silently falls back to the hex encoding of freshly
generated random bytes (with only a console warning). -/
theorem c7_key_fallback_behavior (k : String) (r : List Nat) (hk : k ≠ "") :
    getEncryptionKey (some k) r = .ok k ∧
    getEncryptionKey none r = .ok (bytesToHex r) ∧
    getEncryptionKey (some "") r = .ok (bytesToHex r) := by
  refine ⟨?_, rfl, ?_⟩
  · unfold getEncryptionKey
    dsimp only
    rw [if_pos hk]
  · unfold getEncryptionKey
    dsimp only
    rw [if_neg (by simp)]

/-- Witness for the amended C7 at a concrete key and random bytes. -/
theorem c7_key_fallback_behavior_witness :
    getEncryptionKey (some "abc") [1] = .ok "abc" ∧
    getEncryptionKey none [1] = .ok (bytesToHex [1]) ∧
    getEncryptionKey (some "") [1] = .ok (bytesToHex [1]) :=
  c7_key_fallback_behavior "abc" [1] (by decide)

/-- C10: whenever `addMember` (either variant) returns `true` or `false`,
the resulting cached group state keeps the `id` and `treeDepth` of the
state the call loaded: only `members` and `root` can differ. -/
theorem c10_addMember_preserves_id_and_depth (key : String) (ivR : List Nat)
    (now : Nat) (c : String) :
    (∀ (w u : WorldV1) (b : Bool), addMemberV1 key ivR now c w = (.ok b, u) →
      ∃ g, u.cache = some g ∧
        g.id = (getGroupDataV1 key ivR now w).1.id ∧
        g.treeDepth = (getGroupDataV1 key ivR now w).1.treeDepth) ∧
    (∀ (w u : WorldV2) (b : Bool), addMemberV2 key ivR now c w = (.ok b, u) →
      ∃ g, u.cache = some g ∧
        g.id = (getGroupDataV2 key now w).1.id ∧
        g.treeDepth = (getGroupDataV2 key now w).1.treeDepth) := by
  constructor
  · intro w u b h
    unfold addMemberV1 at h
    dsimp only at h
    split at h
    · simp only [Prod.mk.injEq] at h
      obtain ⟨hb, hu⟩ := h
      rw [← hu]
      exact ⟨_, rfl, rfl, rfl⟩
    · split at h
      · simp at h
      · rename_i vals hvals
        split at h
        · rename_i p hsave
          simp only [Prod.mk.injEq] at h
          obtain ⟨hb, hu⟩ := h
          obtain ⟨hp1, hpc, hpt⟩ := saveGroupDataV1_ok _ _ _ _ _ _ hsave
          rw [← hu]
          exact ⟨_, hpc, rfl, rfl⟩
        · simp at h
        · simp at h
  · intro w u b h
    unfold addMemberV2 at h
    dsimp only at h
    split at h
    · simp only [Prod.mk.injEq] at h
      obtain ⟨hb, hu⟩ := h
      obtain ⟨hcache, _⟩ := getGroupDataV2_cache key now w
      rw [← hu]
      exact ⟨_, hcache, rfl, rfl⟩
    · split at h
      · simp at h
      · rename_i vals hvals
        split at h
        · rename_i p hsave
          simp only [Prod.mk.injEq] at h
          obtain ⟨hb, hu⟩ := h
          obtain ⟨hp1, hpc, hpt⟩ := saveGroupDataV2_ok _ _ _ _ _ _ hsave
          rw [← hu]
          exact ⟨_, hpc, rfl, rfl⟩
        · rename_i w2 hsave
          simp at h

/-- Witness for C10: adding `"42"` to fresh default worlds preserves the
group id `1` and depth `20` in both variants. -/
theorem c10_addMember_preserves_id_and_depth_witness :
    (∃ g, ((addMemberV1 "k" [0] 0 "42" W1fresh).2).cache = some g ∧
      g.id = (getGroupDataV1 "k" [0] 0 W1fresh).1.id ∧
      g.treeDepth = (getGroupDataV1 "k" [0] 0 W1fresh).1.treeDepth) ∧
    (∃ g, ((addMemberV2 "k" [0] 0 "42" W2fresh).2).cache = some g ∧
      g.id = (getGroupDataV2 "k" 0 W2fresh).1.id ∧
      g.treeDepth = (getGroupDataV2 "k" 0 W2fresh).1.treeDepth) :=
  ⟨(c10_addMember_preserves_id_and_depth "k" [0] 0 "42").1 W1fresh
      (addMemberV1 "k" [0] 0 "42" W1fresh).2 true (by decide),
   (c10_addMember_preserves_id_and_depth "k" [0] 0 "42").2 W2fresh
      (addMemberV2 "k" [0] 0 "42" W2fresh).2 true (by decide)⟩

/-- C4 counterexample: an all-whitespace commitment normalizes to the empty
string; `addMember` (variant 1) appends it, the save-time normalization
strips it again, and so the second identical call also returns `true`
instead of `false`. -/
theorem c4_whitespace_commitment_readded :
    (addMemberV1 "k" [0] 0 " " W1fresh).1 = .ok true ∧
    (addMemberV1 "k" [0] 0 " " ((addMemberV1 "k" [0] 0 " " W1fresh).2)).1
      = .ok true := by
  decide

/-- C4 (amended): calling `addMember` twice with the same commitment leaves
the state unchanged the second time and returns `false` — for variant 1
provided the normalized commitment is non-empty (an all-whitespace
commitment is re-added every call), and for variant 2 unconditionally. -/
theorem c4_addMember_idempotent (key : String) (ivR : List Nat) (now : Nat)
    (c : String) :
    (∀ (w u : WorldV1) (b : Bool), normalizeCommitmentValue c ≠ "" →
        addMemberV1 key ivR now c w = (.ok b, u) →
        addMemberV1 key ivR now c u = (.ok false, u)) ∧
    (∀ (w u : WorldV2) (b : Bool),
        addMemberV2 key ivR now c w = (.ok b, u) →
        addMemberV2 key ivR now c u = (.ok false, u)) := by
  constructor
  · intro w u b hne h
    obtain ⟨hc0, ts, hts, hfr⟩ := getGroupDataV1_cache key ivR now w
    have hincfix : normalizeCommitmentValue (normalizeCommitmentValue c)
        = normalizeCommitmentValue c := normalizeCommitmentValue_idem c
    unfold addMemberV1 at h
    dsimp only at h
    split at h
    · rename_i hAny
      simp only [Prod.mk.injEq] at h
      obtain ⟨hb, hu⟩ := h
      rw [← hu]
      set P := getGroupDataV1 key ivR now w with hP
      unfold addMemberV1 getGroupDataV1
      dsimp only
      rw [hts]
      dsimp only
      rw [if_pos hfr]
      dsimp only
      rw [normalizeMembersArray_idem]
      rw [if_pos hAny]
    · rename_i hAny
      split at h
      · simp at h
      · rename_i vals hvals
        split at h
        · rename_i p hsave
          simp only [Prod.mk.injEq] at h
          obtain ⟨hb, hu⟩ := h
          obtain ⟨hp1, hpc, hpt⟩ := saveGroupDataV1_ok _ _ _ _ _ _ hsave
          dsimp only at hp1 hpc hpt
          rw [← hu]
          have hms : normalizeMembersArray
              (normalizeMembersArray (getGroupDataV1 key ivR now w).1.members
                ++ [normalizeCommitmentValue c])
              = normalizeMembersArray (getGroupDataV1 key ivR now w).1.members
                ++ [normalizeCommitmentValue c] := by
            rw [normalizeMembersArray_append, normalizeMembersArray_idem,
              normalizeMembersArray_singleton _ hincfix hne]
          unfold addMemberV1 getGroupDataV1
          dsimp only
          rw [hpc, hpt]
          dsimp only
          rw [if_pos (show now - now < CACHE_TTL by simp [CACHE_TTL])]
          dsimp only
          rw [normalizeMembersArray_idem, hms]
          rw [if_pos (show (normalizeMembersArray
              (getGroupDataV1 key ivR now w).1.members
                ++ [normalizeCommitmentValue c]).any
              (fun m => normalizeCommitmentValue m == normalizeCommitmentValue c)
              = true by
            simp only [List.any_append, List.any_cons, List.any_nil,
              Bool.or_eq_true]
            right
            left
            rw [hincfix]
            simp)]
          rw [hms] at hpc
          exact congrArg (fun z => ((Except.ok false : Except Unit Bool), z))
            (worldV1_cache_eta _ _ hpc)
        · simp at h
        · simp at h
  · intro w u b h
    obtain ⟨hc0, ts, hts, hfr⟩ := getGroupDataV2_cache key now w
    unfold addMemberV2 at h
    dsimp only at h
    split at h
    · rename_i hCont
      simp only [Prod.mk.injEq] at h
      obtain ⟨hb, hu⟩ := h
      rw [← hu]
      set P := getGroupDataV2 key now w with hP
      unfold addMemberV2 getGroupDataV2
      dsimp only
      rw [hc0, hts]
      dsimp only
      rw [if_pos hfr]
      dsimp only
      rw [if_pos hCont]
    · rename_i hCont
      split at h
      · simp at h
      · rename_i vals hvals
        split at h
        · rename_i p hsave
          simp only [Prod.mk.injEq] at h
          obtain ⟨hb, hu⟩ := h
          obtain ⟨hp1, hpc, hpt⟩ := saveGroupDataV2_ok _ _ _ _ _ _ hsave
          dsimp only at hp1 hpc hpt
          rw [← hu]
          unfold addMemberV2 getGroupDataV2
          dsimp only
          rw [hpc, hpt]
          dsimp only
          rw [if_pos (show now - now < CACHE_TTL by simp [CACHE_TTL])]
          dsimp only
          rw [if_pos (show ((getGroupDataV2 key now w).1.members
              ++ [c]).contains c = true by
            simp [List.elem_iff])]
        · rename_i w2 hsave
          simp at h

/-- Witness for the amended C4: adding `"42"` twice to fresh default worlds
returns `false` the second time and leaves the world unchanged, in both
variants. -/
theorem c4_addMember_idempotent_witness :
    addMemberV1 "k" [0] 0 "42" ((addMemberV1 "k" [0] 0 "42" W1fresh).2)
      = (.ok false, (addMemberV1 "k" [0] 0 "42" W1fresh).2) ∧
    addMemberV2 "k" [0] 0 "42" ((addMemberV2 "k" [0] 0 "42" W2fresh).2)
      = (.ok false, (addMemberV2 "k" [0] 0 "42" W2fresh).2) :=
  ⟨(c4_addMember_idempotent "k" [0] 0 "42").1 W1fresh
      (addMemberV1 "k" [0] 0 "42" W1fresh).2 true (by decide) (by decide),
   (c4_addMember_idempotent "k" [0] 0 "42").2 W2fresh
      (addMemberV2 "k" [0] 0 "42" W2fresh).2 true (by decide)⟩

/-- C3 counterexample: `addMember` (variant 1) on an all-whitespace
commitment returns `true` and installs a cached state whose `root` was
computed over the member list with the empty-string leaf (`BigInt("") =
0n`) while the save-time normalization stripped that member — the cached
`root` disagrees with the external root function applied to the cached
members at the stored depth. -/
theorem c3_stale_root_counterexample :
    (addMemberV1 "k" [0] 0 " " W1fresh).1 = .ok true ∧
    cacheConsistent ((addMemberV1 "k" [0] 0 " " W1fresh).2).cache = false := by
  decide

/-- C3 (amended): the root invariant does hold for the cached state
installed by a successful `addMember` whose normalized commitment is
non-empty, and by the primary (non-recovery) `resetGroupData` path; the
counterexample paths — an empty-normalizing `addMember` input and the
crash-recovery branch of `resetGroupData`, which installs `root: null` —
violate it. -/
theorem c3_root_consistent_on_main_paths (key : String) (ivR : List Nat)
    (now : Nat) (c : String) :
    (∀ (w u : WorldV1), normalizeCommitmentValue c ≠ "" →
        addMemberV1 key ivR now c w = (.ok true, u) →
        cacheConsistent u.cache = true) ∧
    (∀ w : WorldV1, w.encWriteFails = false →
        cacheConsistent (resetGroupDataV1 key ivR now w).2.cache = true) := by
  constructor
  · intro w u hne h
    have hincfix : normalizeCommitmentValue (normalizeCommitmentValue c)
        = normalizeCommitmentValue c := normalizeCommitmentValue_idem c
    unfold addMemberV1 at h
    dsimp only at h
    split at h
    · simp at h
    · rename_i hAny
      split at h
      · simp at h
      · rename_i vals hvals
        split at h
        · rename_i p hsave
          simp only [Prod.mk.injEq] at h
          obtain ⟨hb, hu⟩ := h
          obtain ⟨hp1, hpc, hpt⟩ := saveGroupDataV1_ok _ _ _ _ _ _ hsave
          dsimp only at hp1 hpc hpt
          rw [← hu, hpc]
          have hms : normalizeMembersArray
              (normalizeMembersArray (getGroupDataV1 key ivR now w).1.members
                ++ [normalizeCommitmentValue c])
              = normalizeMembersArray (getGroupDataV1 key ivR now w).1.members
                ++ [normalizeCommitmentValue c] := by
            rw [normalizeMembersArray_append, normalizeMembersArray_idem,
              normalizeMembersArray_singleton _ hincfix hne]
          unfold cacheConsistent rootConsistent
          dsimp only
          rw [hms, hvals]
          simp
        · simp at h
        · simp at h
  · intro w hfail
    unfold resetGroupDataV1
    dsimp only
    split
    · rename_i p hsave
      obtain ⟨hp1, hpc, hpt⟩ := saveGroupDataV1_ok _ _ _ _ _ _ hsave
      dsimp only at hpc
      dsimp only
      rw [hpc]
      decide
    · rename_i e hsave
      exfalso
      unfold saveGroupDataV1 saveGroupToFileV1 at hsave
      dsimp only at hsave
      rw [hfail] at hsave
      obtain ⟨blob, hblob⟩ := encryptGroupBlob_ok key ivR
        { initGroupV1 DEFAULT_GROUP with
          members := normalizeMembersArray (initGroupV1 DEFAULT_GROUP).members }
      rw [hblob] at hsave
      rw [if_neg (by decide)] at hsave
      exact absurd hsave (by simp)

/-- Witness for the amended C3 at concrete worlds. -/
theorem c3_root_consistent_on_main_paths_witness :
    cacheConsistent ((addMemberV1 "k" [0] 0 "42" W1fresh).2).cache = true ∧
    cacheConsistent (resetGroupDataV1 "k" [0] 0 W1fresh).2.cache = true :=
  ⟨(c3_root_consistent_on_main_paths "k" [0] 0 "42").1 W1fresh
      (addMemberV1 "k" [0] 0 "42" W1fresh).2 (by decide) (by decide),
   (c3_root_consistent_on_main_paths "k" [0] 0 "42").2 W1fresh (by decide)⟩

/-- C8: `addMember` (variant 1) does not reject malformed input before
mutating state: a non-numeric commitment is pushed into the shared cached
member list first, and only then does the `BigInt` conversion throw — the
call fails with the cache already mutated (the file stays untouched), so
the request is partially applied rather than rejected. -/
theorem c8_malformed_commitment_mutates_before_failing :
    (addMemberV1 "k" [0] 0 "xyz" W1fresh).1 = .error () ∧
    ((addMemberV1 "k" [0] 0 "xyz" W1fresh).2).cache.map (fun g => g.members)
      = some ["xyz"] ∧
    ((addMemberV1 "k" [0] 0 "xyz" W1fresh).2).groupJson = W1fresh.groupJson := by
  decide

/-- C5 counterexample: on a primary file that fails decryption but parses
as legacy plaintext JSON (and with no backup present), the claimed
four-step procedure would migrate and return the legacy state, while the
encrypted-store load (variant 2) returns the synthesized default instead —
it has no legacy-migration step. -/
theorem c5_load_chain_counterexample :
    loadGroupFromFileV2 "k" W2legacy ≠ (claimedLoadChain "k" [0] W2legacy).1 := by
  decide

/-- C5 (amended): the two load procedures implement shorter chains than
claimed.  Variant 2: (1) decrypt the primary; (2) only when the primary
exists and fails, decrypt the backup; (3) fall back to the default state —
with no legacy-plaintext step, no persistence of the default, and the
backup ignored when the primary file is absent.  Variant 1: (1) decrypt
the single file; (2) on failure parse it as legacy plaintext and re-persist
it encrypted (without creating any backup); (3) fall back to the default
state without persisting it. -/
theorem c5_actual_load_chains (key : String) (ivR : List Nat) :
    (∀ (w : WorldV2) (g : RawGroup), decryptFromFile key w.primaryEnc = some g →
        loadGroupFromFileV2 key w = initGroupV2 g) ∧
    (∀ (w : WorldV2) (f : StoredFile) (g : RawGroup), w.primaryEnc = some f →
        decryptFromFile key (some f) = none →
        decryptFromFile key w.backupEnc = some g →
        loadGroupFromFileV2 key w = initGroupV2 g) ∧
    (∀ w : WorldV2, w.primaryEnc = none →
        loadGroupFromFileV2 key w = initGroupV2 DEFAULT_GROUP) ∧
    (∀ (w : WorldV2) (f : StoredFile), w.primaryEnc = some f →
        decryptFromFile key (some f) = none →
        decryptFromFile key w.backupEnc = none →
        loadGroupFromFileV2 key w = initGroupV2 DEFAULT_GROUP) ∧
    (∀ (w : WorldV1) (f : StoredFile) (pg : RawGroup), w.groupJson = some f →
        decryptFromFile key (some f) = none →
        parsePlainGroup (some f) = some pg →
        w.encWriteFails = false →
        ∃ blob, encryptGroupBlob key ivR (initGroupV1 pg) = .ok blob ∧
          loadGroupFromFileV1 key ivR w
            = (initGroupV1 pg, { w with groupJson := some (.encFile blob) })) := by
  refine ⟨?_, ?_, ?_, ?_, ?_⟩
  · intro w g hg
    unfold loadGroupFromFileV2
    split
    · rename_i hpn
      rw [hpn] at hg
      simp [decryptFromFile] at hg
    · rename_i f hpf
      rw [hpf] at hg
      rw [hg]
  · intro w f g hp hpf hbg
    unfold loadGroupFromFileV2
    split
    · rename_i hpn
      rw [hp] at hpn
      exact Option.noConfusion hpn
    · rename_i f1 hpf1
      rw [hp] at hpf1
      injection hpf1 with hf1
      rw [← hf1, hpf]
      dsimp only
      rw [hbg]
  · intro w hp
    unfold loadGroupFromFileV2
    split
    · rfl
    · rename_i f1 hpf1
      rw [hp] at hpf1
      exact Option.noConfusion hpf1
  · intro w f hp hpf hbn
    unfold loadGroupFromFileV2
    split
    · rename_i hpn
      rw [hp] at hpn
    · rename_i f1 hpf1
      rw [hp] at hpf1
      injection hpf1 with hf1
      rw [← hf1, hpf]
      dsimp only
      rw [hbn]
  · intro w f pg hgj hdf hpg hfail
    obtain ⟨blob, hblob⟩ := encryptGroupBlob_ok key ivR (initGroupV1 pg)
    refine ⟨blob, hblob, ?_⟩
    unfold loadGroupFromFileV1
    split
    · rename_i hpn
      rw [hgj] at hpn
      exact Option.noConfusion hpn
    · rename_i f1 hpf1
      rw [hgj] at hpf1
      injection hpf1 with hf1
      rw [← hf1, hdf]
      dsimp only
      rw [hpg]
      dsimp only
      rw [hfail]
      rw [if_neg (by simp)]
      rw [hblob]

/-- Witness for the amended C5, exercising every clause at a concrete
world: a decryptable primary, a corrupt primary with a decryptable backup,
a missing primary, a corrupt primary with no backup, and a legacy
plaintext file migrated by variant 1. -/
theorem c5_actual_load_chains_witness :
    loadGroupFromFileV2 "k" W2goodPrimary = initGroupV2 DEFAULT_GROUP ∧
    loadGroupFromFileV2 "k" W2corruptPrimary = initGroupV2 DEFAULT_GROUP ∧
    loadGroupFromFileV2 "k" W2fresh = initGroupV2 DEFAULT_GROUP ∧
    loadGroupFromFileV2 "k" W2corruptNoBackup = initGroupV2 DEFAULT_GROUP ∧
    (∃ blob, encryptGroupBlob "k" [0] (initGroupV1 gLegacy) = .ok blob ∧
      loadGroupFromFileV1 "k" [0] W1legacy
        = (initGroupV1 gLegacy, { W1legacy with groupJson := some (.encFile blob) })) :=
  ⟨(c5_actual_load_chains "k" [0]).1 W2goodPrimary DEFAULT_GROUP (by decide),
   (c5_actual_load_chains "k" [0]).2.1 W2corruptPrimary (.encFile badBlob)
      DEFAULT_GROUP rfl (by decide) (by decide),
   (c5_actual_load_chains "k" [0]).2.2.1 W2fresh rfl,
   (c5_actual_load_chains "k" [0]).2.2.2.1 W2corruptNoBackup (.encFile badBlob)
      rfl (by decide) rfl,
   (c5_actual_load_chains "k" [0]).2.2.2.2 W1legacy (.plainFile gLegacy) gLegacy
      rfl (by decide) rfl rfl⟩

/-- C9 counterexample: the `group.json` variant of `saveGroupToFile` keeps
no copy of the pre-save primary anywhere: on a world whose only file is the
legacy plaintext record, a successful save leaves a world whose only file
slot holds the fresh encrypted blob — the old primary content is preserved
in no backup location (the variant has none). -/
theorem c9_plain_variant_keeps_no_backup :
    (match saveGroupToFileV1 "k" [0] DEFAULT_GROUP W1legacy with
      | .ok w1 =>
          decide (w1.cache = none) && decide (w1.cacheTs = none)
            && (match w1.groupJson with
                | some (.encFile _) => true
                | _ => false)
      | .error _ => false) = true := by
  decide

/-- C9 (amended): the encrypted-store variant of `saveGroupToFile` does
copy an existing primary file to the backup location before overwriting the
primary with the fresh encrypted blob (leaving the backup untouched when no
primary exists); the `group.json` variant writes its single file with no
backup of any kind. -/
theorem c9_backup_before_overwrite (key : String) (ivR : List Nat)
    (g : RawGroup) (w w' : WorldV2)
    (h : saveGroupToFileV2 key ivR g w = .ok w') :
    (∀ f, w.primaryEnc = some f → w'.backupEnc = some f) ∧
    (w.primaryEnc = none → w'.backupEnc = w.backupEnc) ∧
    ∃ blob, encryptGroupBlob key ivR g = .ok blob ∧
      w'.primaryEnc = some (.encFile blob) := by
  unfold saveGroupToFileV2 at h
  dsimp only at h
  rcases hp : w.primaryEnc with _ | f0
  · rw [hp] at h
    dsimp only at h
    split at h
    · exact absurd h (by simp)
    · split at h
      · rename_i blob hblob
        simp only [Except.ok.injEq] at h
        refine ⟨?_, ?_, blob, hblob, ?_⟩
        · intro f hf
          exact Option.noConfusion hf
        · intro _
          rw [← h]
        · rw [← h]
      · exact absurd h (by simp)
  · rw [hp] at h
    dsimp only at h
    split at h
    · exact absurd h (by simp)
    · split at h
      · rename_i blob hblob
        simp only [Except.ok.injEq] at h
        refine ⟨?_, ?_, blob, hblob, ?_⟩
        · intro f hf
          injection hf with hf
          rw [← h, ← hf]
        · intro hnone
          exact Option.noConfusion hnone
        · rw [← h]
      · exact absurd h (by simp)

/-- Witness for the amended C9: saving over an existing encrypted primary
copies it into the backup slot. -/
theorem c9_backup_before_overwrite_witness :
    ∃ w', saveGroupToFileV2 "k" [1] DEFAULT_GROUP W2goodPrimary = .ok w' ∧
      ((∀ f, W2goodPrimary.primaryEnc = some f → w'.backupEnc = some f) ∧
       (W2goodPrimary.primaryEnc = none → w'.backupEnc = W2goodPrimary.backupEnc) ∧
       ∃ blob, encryptGroupBlob "k" [1] DEFAULT_GROUP = .ok blob ∧
         w'.primaryEnc = some (.encFile blob)) := by
  cases hs : saveGroupToFileV2 "k" [1] DEFAULT_GROUP W2goodPrimary with
  | ok w' =>
      exact ⟨w', rfl, c9_backup_before_overwrite _ _ _ _ _ hs⟩
  | error e =>
      exfalso
      have hk : (saveGroupToFileV2 "k" [1] DEFAULT_GROUP W2goodPrimary).toOption.isSome
          = true := by decide
      rw [hs] at hk
      simp [Except.toOption] at hk

end OAuthSemaphore
